import Mathlib

/-!
Formal model of the Memphis broker control plane: producer lifecycle
(create/destroy/kill/relive and the station-overview partitioning), the
schema engine (create schema, create version, rollback, validate) and the
socket overview endpoint.  Definitions are shallow embeddings of the Go
source; the Mongo driver primitives (find-one, update-many, set-on-insert
upsert, find-one-and-update) are modelled as the corresponding pure list
operations on an explicit store state.
-/

deriving instance DecidableEq for Except

namespace Memphis

/-- Go strings.ToLower restricted to one character: ASCII uppercase letters
are shifted into the lowercase range, everything else is unchanged. -/
def lowerChar (c : Char) : Char :=
  if 'A' ≤ c ∧ c ≤ 'Z' then Char.ofNat (c.toNat + 32) else c

/-- Go strings.ToLower on a whole string (the source only ever feeds it
ASCII identifiers). -/
def toLowerStr (s : String) : String := ⟨s.data.map lowerChar⟩

/-- One character of the object-name alphabet of the regex used by the
validators: lowercase letters, digits and underscore. -/
def isNameChar (c : Char) : Bool :=
  ('a' ≤ c && c ≤ 'z') || ('0' ≤ c && c ≤ '9') || c = '_'

/-- Mongo UpdateOne / FindOneAndUpdate write model: apply f to the first
element matching p, leave the rest unchanged. -/
def updateFirst (p : α → Bool) (f : α → α) : List α → List α
  | [] => []
  | a :: as => if p a then f a :: as else a :: updateFirst p f as

/-- Mongo UpdateMany write model: apply f to every element matching p. -/
def updateMany (p : α → Bool) (f : α → α) (l : List α) : List α :=
  l.map fun a => if p a then f a else a

/- ### Producer / station / connection data model (src/server/pse). -/

structure Connection where
  id : Nat
  isActive : Bool
  createdByUser : String
deriving DecidableEq

structure Station where
  id : Nat
  name : String
  factoryId : Nat
  isDeleted : Bool
deriving DecidableEq

structure Producer where
  id : Nat
  name : String
  stationId : Nat
  factoryId : Nat
  type : String
  connectionId : Nat
  createdByUser : String
  isActive : Bool
  isDeleted : Bool
  creationDate : Nat
deriving DecidableEq, Inhabited

structure AuditLog where
  stationName : String
  message : String
  createdByUser : String
  userType : String
  creationDate : Nat
deriving DecidableEq

/-- The slice of the document store touched by the producer lifecycle. -/
structure Db where
  connections : List Connection
  stations : List Station
  producers : List Producer
  auditLogs : List AuditLog
deriving DecidableEq

/-- validateProducerName from the source: empty names, names longer than 32
bytes and names outside the regex are rejected with the source's
messages. -/
def validateProducerName (name : String) : Option String :=
  if name.data.length = 0 then some "Producer name can not be empty"
  else if name.data.length > 32 then some "Producer name should be under 32 characters"
  else if !(name.data.all isNameChar) then some "Producer name has to include only letters and _"
  else none

/-- validateProducerType from the source. -/
def validateProducerType (producerType : String) : Option String :=
  if producerType ≠ "application" ∧ producerType ≠ "connector" then
    some "Producer type has to be one of the following application/connector"
  else none

/-- Modelled from the spec: IsConnectionExist (handlers package, not under
src) resolves a connection id in the connections collection. -/
def IsConnectionExist (db : Db) (connId : Nat) : Option Connection :=
  db.connections.find? fun c => c.id == connId

/-- Modelled from the spec: IsStationExist (handlers package, not under
src) resolves a station by lowercased name among non-deleted stations. -/
def IsStationExist (db : Db) (name : String) : Option Station :=
  db.stations.find? fun s => s.name == name && !s.isDeleted

/-- Modelled from the spec: IsProducerExist (handlers package, not under
src) checks for a non-deleted producer of the same name on the station. -/
def IsProducerExist (db : Db) (name : String) (stationId : Nat) : Bool :=
  db.producers.any fun p => p.name == name && p.stationId == stationId && !p.isDeleted

/-- Modelled from the spec: CreateDefaultStation (handlers package, not
under src) auto-creates a station with DefaultStationConfig (retention,
replicas, storage and dedup settings are not observed by any claim) and
created_by_user copied from the resolving connection.  The new document id
is passed in, standing for the generated ObjectID. -/
def CreateDefaultStation (db : Db) (name : String) (newStationId : Nat) : Station × Db :=
  let st : Station := ⟨newStationId, name, 0, false⟩
  (st, { db with stations := db.stations ++ [st] })

structure CreateProducerRequest where
  name : String
  stationName : String
  connectionId : Nat
  producerType : String
deriving DecidableEq

/-- createProducerDirect from the source.  The connection id is modelled as
a Nat (the source first decodes a hex ObjectID; a malformed id fails before
any of the behaviour the claims are about).  username is the requesting
client's username (c.memphisInfo.username), used for audit records; the
producer row itself copies created_by_user from the connection, as in the
source.  newStationId / newProducerId stand for freshly generated
ObjectIDs, now for time.Now(). -/
def createProducerDirect (db : Db) (cpr : CreateProducerRequest) (username : String)
    (newStationId newProducerId now : Nat) : Except String Unit × Db :=
  let name := toLowerStr cpr.name
  match validateProducerName name with
  | some e => (.error e, db)
  | none =>
    let producerType := toLowerStr cpr.producerType
    match validateProducerType producerType with
    | some e => (.error e, db)
    | none =>
      match IsConnectionExist db cpr.connectionId with
      | none => (.error "memphis: connection id was not found", db)
      | some connection =>
        if !connection.isActive then (.error "memphis: connection id is not active", db)
        else
          let stationName := toLowerStr cpr.stationName
          let stDb : Station × Db :=
            match IsStationExist db stationName with
            | some st => (st, db)
            | none =>
              let (st, db1) := CreateDefaultStation db stationName newStationId
              (st, { db1 with auditLogs := db1.auditLogs ++
                      [⟨stationName, "Station " ++ stationName ++ " has been created",
                        username, "application", now⟩] })
          let station := stDb.1
          let db1 := stDb.2
          if IsProducerExist db1 name station.id then
            (.error "memphis: producer name has to be unique per station", db1)
          else
            let newProducer : Producer :=
              ⟨newProducerId, name, station.id, station.factoryId, producerType,
                cpr.connectionId, connection.createdByUser, true, false, now⟩
            (.ok (), { db1 with
              producers := db1.producers ++ [newProducer],
              auditLogs := db1.auditLogs ++
                [⟨stationName, "Producer " ++ name ++ " has been created",
                  username, "application", now⟩] })

structure DestroyProducerRequest where
  stationName : String
  producerName : String
deriving DecidableEq

/-- The FindOneAndUpdate filter of destroyProducerDirect: name, station id
and is_active=true.  When the station lookup found nothing the Go station
value is the zero ObjectID, which matches no generated producer station_id;
this is modelled by an Option that matches nothing. -/
def destroyMatch (sid : Option Nat) (name : String) (p : Producer) : Bool :=
  p.name == name && some p.stationId == sid && p.isActive

/-- destroyProducerDirect from the source: find-one-and-update the unique
(name, station_id, is_active=true) document to (is_active=false,
is_deleted=true); with no match, fail with "Producer does not exist". -/
def destroyProducerDirect (db : Db) (dpr : DestroyProducerRequest) (username : String)
    (now : Nat) : Except String Unit × Db :=
  let stationName := toLowerStr dpr.stationName
  let name := toLowerStr dpr.producerName
  let sid := (IsStationExist db stationName).map (·.id)
  if db.producers.any (destroyMatch sid name) then
    (.ok (), { db with
      producers := updateFirst (destroyMatch sid name)
        (fun p => { p with isActive := false, isDeleted := true }) db.producers,
      auditLogs := db.auditLogs ++
        [⟨stationName, "Producer " ++ name ++ " has been deleted",
          username, "application", now⟩] })
  else (.error "Producer does not exist", db)

/-- KillProducers from the source: when at least one producer of the
connection is active, bulk-clear is_active on every producer of the
connection and append one audit record per previously-active producer. -/
def KillProducers (db : Db) (connectionId : Nat) (now : Nat) : Db :=
  let actives := db.producers.filter fun p => p.connectionId == connectionId && p.isActive
  if actives.isEmpty then db
  else
    let stName :=
      ((db.stations.find? fun s => s.id == (actives.headD default).stationId).map (·.name)).getD ""
    let userType := if (actives.headD default).createdByUser = "root" then "root" else "application"
    { db with
      producers := updateMany (fun p => p.connectionId == connectionId)
        (fun p => { p with isActive := false }) db.producers,
      auditLogs := db.auditLogs ++ actives.map fun p =>
        ⟨stName, "Producer " ++ p.name ++ " has been disconnected",
          (actives.headD default).createdByUser, userType, now⟩ }

/-- ReliveProducers from the source: bulk-set is_active=true on every
non-deleted producer of the connection. -/
def ReliveProducers (db : Db) (connectionId : Nat) : Db :=
  { db with
    producers := updateMany (fun p => p.connectionId == connectionId && !p.isDeleted)
      (fun p => { p with isActive := true }) db.producers }

/- ### Station overview partitioning (GetProducersByStation). -/

/-- The comparator of the three sort.Slice calls and of the Mongo sort
stage: creation_date descending. -/
def prodDateGe (a b : Producer) : Prop := b.creationDate ≤ a.creationDate

instance : DecidableRel prodDateGe := fun a b => Nat.decLe b.creationDate a.creationDate

instance : IsTotal Producer prodDateGe :=
  ⟨fun a b => Nat.le_total b.creationDate a.creationDate⟩

instance : IsTrans Producer prodDateGe :=
  ⟨fun _ _ _ hab hbc => Nat.le_trans hbc hab⟩

/-- Sorting by creation_date descending (both the aggregation pipeline's
sort stage and the final sort.Slice calls). -/
def sortByDateDesc (l : List Producer) : List Producer := List.insertionSort prodDateGe l

/-- The name-deduplicating partition loop of GetProducersByStation: walk
the (already date-descending) rows, skip any row whose name was seen, and
route each surviving row by its flags: is_active into connected, neither
active nor deleted into disconnected, deleted into deleted. -/
def partitionProducers : List Producer → List String → List Producer × List Producer × List Producer
  | [], _ => ([], [], [])
  | p :: rest, seen =>
    if seen.contains p.name then partitionProducers rest seen
    else
      let r := partitionProducers rest (p.name :: seen)
      if p.isActive then (p :: r.1, r.2.1, r.2.2)
      else if !p.isDeleted && !p.isActive then (r.1, p :: r.2.1, r.2.2)
      else if p.isDeleted then (r.1, r.2.1, p :: r.2.2)
      else r

/-- GetProducersByStation from the source: the pipeline matches the
station's rows and sorts them by creation_date descending, the loop
deduplicates by name and partitions by flags, and each partition is then
sorted by creation_date descending.  The lookup stages only join display
fields and are identity on the fields modelled here. -/
def GetProducersByStation (db : Db) (station : Station) :
    List Producer × List Producer × List Producer :=
  let rows := sortByDateDesc (db.producers.filter fun p => p.stationId == station.id)
  let r := partitionProducers rows []
  (sortByDateDesc r.1, sortByDateDesc r.2.1, sortByDateDesc r.2.2)

/- ### Schema engine data model (src/main.go, package server). -/

structure Schema where
  id : Nat
  name : String
  type : String
deriving DecidableEq

structure SchemaVersion where
  id : Nat
  versionNumber : Nat
  active : Bool
  createdByUser : String
  creationDate : Nat
  schemaContent : String
  schemaId : Nat
  messageStructName : String
deriving DecidableEq

/-- The schema-side slice of the document store. -/
structure SDb where
  schemas : List Schema
  schemaVersions : List SchemaVersion
deriving DecidableEq

/-- Outcome of a schema HTTP handler, keeping the source's distinction
between the showable error status, the schema-validation status 555,
unauthorized and plain server errors. -/
inductive Resp where
  | ok
  | showableErr (msg : String)
  | schemaValidationErr (msg : String)
deriving DecidableEq

/-- Modelled from the spec: validateName (handlers package, not under src)
accepts names matching the lowercase regex of length 1 to 32 and otherwise
formats a kind-specific error. -/
def validateName (name objType : String) : Option String :=
  if name.data.length ≥ 1 ∧ name.data.length ≤ 32 ∧ name.data.all isNameChar then none
  else some (objType ++ " name is not valid")

/-- validateSchemaName from the source. -/
def validateSchemaName (schemaName : String) : Option String :=
  validateName schemaName "Schema"

/-- validateSchemaType from the source: protobuf accepted, avro and json
rejected as unsupported-yet, anything else as an unsupported type. -/
def validateSchemaType (schemaType : String) : Option String :=
  if schemaType = "protobuf" then none
  else if schemaType = "avro" ∨ schemaType = "json" then
    some "Json/Avro types are not supported at this time"
  else some "unsupported schema type"

/-- validateSchemaContent from the source, with the external protobuf
parser abstracted as an oracle: proto content = none means the parse
succeeded, some e carries the parser diagnostic. -/
def validateSchemaContent (proto : String → Option String)
    (schemaContent schemaType : String) : Option String :=
  if schemaContent.data.length = 0 then some "Your schema content is invalid"
  else if schemaType = "protobuf" then
    match proto schemaContent with
    | some e => some ("Your Proto file is invalid: " ++ e)
    | none => none
  else none

/-- validateMessageStructName from the source. -/
def validateMessageStructName (messageStructName : String) : Option String :=
  if messageStructName = "" then
    some "Message struct name is required when schema type is Protobuf"
  else none

/-- Modelled from the spec: IsSchemaExist (handlers package, not under src)
resolves a schema by its unique lowercased name. -/
def IsSchemaExist (db : SDb) (name : String) : Option Schema :=
  db.schemas.find? fun s => s.name == name

/-- getVersionsCount from the source: count of the versions of a schema. -/
def getVersionsCount (db : SDb) (schemaId : Nat) : Nat :=
  db.schemaVersions.countP fun v => v.schemaId == schemaId

/-- Modelled from the spec: isSchemaVersionExists (handlers package, not
under src) checks for a version document with the given schema id and
version number. -/
def isSchemaVersionExists (db : SDb) (versionNumber schemaId : Nat) : Bool :=
  db.schemaVersions.any fun v => v.schemaId == schemaId && v.versionNumber == versionNumber

/-- updateActiveVersion from the source: clear active on every version of
the schema, then set active on the document with the target version
number. -/
def updateActiveVersion (db : SDb) (schemaId versionNumber : Nat) : SDb :=
  let cleared := updateMany (fun v => v.schemaId == schemaId)
    (fun v => { v with active := false }) db.schemaVersions
  let written := updateFirst
    (fun v => v.schemaId == schemaId && v.versionNumber == versionNumber)
    (fun v => { v with active := true }) cleared
  { db with schemaVersions := written }

structure CreateNewSchemaRequest where
  name : String
  type : String
  schemaContent : String
  messageStructName : String
deriving DecidableEq

/-- CreateNewSchema from the source, after request binding and with the
authenticated user passed in (getUserDetailsFromMiddleware).  newSchemaId
and newVersionId stand for freshly generated ObjectIDs.  The steps: name
validation, exists precheck, type validation, message-struct-name check
for protobuf, content validation, then a set-on-insert upsert on the
schema name; only when the upsert inserted is the version-1 active
SchemaVersion inserted, a matched upsert answers "already exists".  Tag
attachment touches only the tags collection and no claim observes it. -/
def CreateNewSchema (proto : String → Option String) (db : SDb)
    (body : CreateNewSchemaRequest) (user : String)
    (newSchemaId newVersionId now : Nat) : Resp × SDb :=
  let schemaName := toLowerStr body.name
  match validateSchemaName schemaName with
  | some e => (.showableErr e, db)
  | none =>
    if (IsSchemaExist db schemaName).isSome then
      (.showableErr "Schema with that name already exists", db)
    else
      let schemaType := toLowerStr body.type
      match validateSchemaType schemaType with
      | some e => (.showableErr e, db)
      | none =>
        match if schemaType = "protobuf"
              then validateMessageStructName body.messageStructName else none with
        | some e => (.showableErr e, db)
        | none =>
          match validateSchemaContent proto body.schemaContent schemaType with
          | some e => (.schemaValidationErr e, db)
          | none =>
            if db.schemas.any (fun s => s.name == schemaName) then
              (.showableErr "Schema with that name already exists", db)
            else
              (.ok, { db with
                schemas := db.schemas ++ [⟨newSchemaId, schemaName, schemaType⟩],
                schemaVersions := db.schemaVersions ++
                  [⟨newVersionId, 1, true, user, now, body.schemaContent,
                    newSchemaId, body.messageStructName⟩] })

structure CreateNewVersionRequest where
  schemaName : String
  schemaContent : String
  messageStructName : String
deriving DecidableEq

/-- CreateNewVersion from the source: the schema must exist, the
message-struct-name rule applies when the stored schema type is protobuf,
the content is validated against the stored type, the next version number
is the current count plus one, and the version is written by a
set-on-insert upsert keyed on (schema_id, version_number); a matched
upsert answers "Version already exists" and writes nothing. -/
def CreateNewVersion (proto : String → Option String) (db : SDb)
    (body : CreateNewVersionRequest) (user : String)
    (newVersionId now : Nat) : Resp × SDb :=
  let schemaName := toLowerStr body.schemaName
  match IsSchemaExist db schemaName with
  | none => (.showableErr "Schema does not exist", db)
  | some schema =>
    match if schema.type = "protobuf"
          then validateMessageStructName body.messageStructName else none with
    | some e => (.showableErr e, db)
    | none =>
      match validateSchemaContent proto body.schemaContent schema.type with
      | some e => (.schemaValidationErr e, db)
      | none =>
        let versionNumber := getVersionsCount db schema.id + 1
        if db.schemaVersions.any
            (fun v => v.schemaId == schema.id && v.versionNumber == versionNumber) then
          (.showableErr "Version already exists", db)
        else
          (.ok, { db with schemaVersions := db.schemaVersions ++
            [⟨newVersionId, versionNumber, false, user, now, body.schemaContent,
              schema.id, body.messageStructName⟩] })

structure RollBackVersionRequest where
  schemaName : String
  versionNumber : Nat
deriving DecidableEq

/-- RollBackVersion from the source: the schema and the target version must
exist; when the schema has more than one version, updateActiveVersion
clears all active flags and sets the target active; with a single version
the handler succeeds without writing. -/
def RollBackVersion (db : SDb) (body : RollBackVersionRequest) : Resp × SDb :=
  let schemaName := toLowerStr body.schemaName
  match IsSchemaExist db schemaName with
  | none => (.showableErr "Schema does not exist", db)
  | some schema =>
    if !isSchemaVersionExists db body.versionNumber schema.id then
      (.showableErr "Schema version does not exist", db)
    else if getVersionsCount db schema.id > 1 then
      (.ok, updateActiveVersion db schema.id body.versionNumber)
    else (.ok, db)

structure ValidateSchemaRequest where
  schemaType : String
  schemaContent : String
  messageStructName : String
deriving DecidableEq

/-- ValidateSchema from the source: lowercases and validates the type, then
validates the content, and answers is_valid true; it performs no store
writes (the state is returned unchanged) and never reads
message_struct_name. -/
def ValidateSchema (proto : String → Option String) (db : SDb)
    (body : ValidateSchemaRequest) : Resp × SDb :=
  let schemaType := toLowerStr body.schemaType
  match validateSchemaType schemaType with
  | some e => (.showableErr e, db)
  | none =>
    match validateSchemaContent proto body.schemaContent schemaType with
    | some e => (.schemaValidationErr e, db)
    | none => (.ok, db)

/- ### Socket overview endpoint (src/socketio/socketio.go). -/

structure ConsumerRow where
  name : String
  isActive : Bool
  isDeleted : Bool
deriving DecidableEq

/-- The payload of a station_overview frame, with the Go zero value (empty
slices, zero counters) as the value the endpoint falls back to. -/
structure StationOverviewPayload where
  producers : List Producer
  consumers : List ConsumerRow
  totalMessages : Nat
  avgMsgSize : Int
  auditLogs : List AuditLog
deriving DecidableEq

/-- The Go zero value stationOverviewData. -/
def emptyStationOverview : StationOverviewPayload := ⟨[], [], 0, 0, []⟩

/-- Modelled from the spec: the store reads getStationOverviewData performs
through the handlers package (IsStationExist, GetProducersByStation,
GetConsumersByStation, GetAuditLogsByStation, GetTotalMessages,
GetAvgMsgSize are not under src).  Each field is the outcome of the
corresponding read for the requested station: error for a failing read,
and for the station lookup ok none when the station does not exist. -/
structure OverviewReads where
  stationRead : Except Unit (Option Station)
  producersRead : Except Unit (List Producer)
  consumersRead : Except Unit (List ConsumerRow)
  auditLogsRead : Except Unit (List AuditLog)
  totalMessagesRead : Except Unit Nat
  avgMsgSizeRead : Except Unit Int

/-- The two ways getStationOverviewData reports an error: a failing station
lookup is propagated, a missing station answers "Station does not
exist". -/
inductive OverviewErr where
  | store
  | stationDoesNotExist
deriving DecidableEq

/-- getStationOverviewData from the source: a failing station lookup or a
missing station is an error; after that, a failure of any of the five
reads (producers, consumers, audit logs, total messages, average message
size) returns the zero-value snapshot together with a nil error. -/
def getStationOverviewData (env : OverviewReads) :
    Except OverviewErr StationOverviewPayload :=
  match env.stationRead with
  | .error _ => .error .store
  | .ok none => .error .stationDoesNotExist
  | .ok (some _) =>
    match env.producersRead with
    | .error _ => .ok emptyStationOverview
    | .ok producers =>
      match env.consumersRead with
      | .error _ => .ok emptyStationOverview
      | .ok consumers =>
        match env.auditLogsRead with
        | .error _ => .ok emptyStationOverview
        | .ok auditLogs =>
          match env.totalMessagesRead with
          | .error _ => .ok emptyStationOverview
          | .ok totalMessages =>
            match env.avgMsgSizeRead with
            | .error _ => .ok emptyStationOverview
            | .ok avgMsgSize =>
              .ok ⟨producers, consumers, totalMessages, avgMsgSize, auditLogs⟩

/- ### Reachability of producer states. -/

/-- Producer states reachable from a store with no producer rows by any
sequence of the four lifecycle operations, with arbitrary requests, users,
generated ids and timestamps. -/
inductive PReach : Db → Prop where
  | init (db : Db) : db.producers = [] → PReach db
  | create (db : Db) (cpr : CreateProducerRequest) (username : String)
      (newStationId newProducerId now : Nat) : PReach db →
      PReach (createProducerDirect db cpr username newStationId newProducerId now).2
  | destroy (db : Db) (dpr : DestroyProducerRequest) (username : String) (now : Nat) :
      PReach db → PReach (destroyProducerDirect db dpr username now).2
  | kill (db : Db) (connectionId now : Nat) : PReach db →
      PReach (KillProducers db connectionId now)
  | relive (db : Db) (connectionId : Nat) : PReach db →
      PReach (ReliveProducers db connectionId)

/- ### Generic lemmas about the write primitives. -/

theorem mem_updateFirst {p : α → Bool} {f : α → α} {l : List α} {x : α}
    (h : x ∈ updateFirst p f l) : x ∈ l ∨ ∃ u ∈ l, p u = true ∧ x = f u := by
  induction l with
  | nil => simp [updateFirst] at h
  | cons a as ih =>
    simp only [updateFirst] at h
    by_cases hpa : p a = true
    · rw [if_pos hpa] at h
      rcases List.mem_cons.mp h with h | h
      · exact Or.inr ⟨a, List.mem_cons_self a as, hpa, h⟩
      · exact Or.inl (List.mem_cons_of_mem _ h)
    · rw [if_neg hpa] at h
      rcases List.mem_cons.mp h with h | h
      · exact Or.inl (List.mem_cons.mpr (Or.inl h))
      · rcases ih h with h | ⟨u, hu, hpu, hx⟩
        · exact Or.inl (List.mem_cons_of_mem _ h)
        · exact Or.inr ⟨u, List.mem_cons_of_mem _ hu, hpu, hx⟩

theorem mem_updateMany {p : α → Bool} {f : α → α} {l : List α} {x : α}
    (h : x ∈ updateMany p f l) : ∃ u ∈ l, x = if p u = true then f u else u := by
  rcases List.mem_map.mp h with ⟨u, hu, hx⟩
  exact ⟨u, hu, by rw [← hx]⟩

theorem updateFirst_of_forall_neg {p : α → Bool} {f : α → α} {l : List α}
    (h : ∀ a ∈ l, p a = false) : updateFirst p f l = l := by
  induction l with
  | nil => rfl
  | cons a as ih =>
    have ha := h a (List.mem_cons_self a as)
    simp only [updateFirst, ha]
    simp [ih fun b hb => h b (List.mem_cons_of_mem _ hb)]

/- ### C3: the deleted-implies-inactive invariant. -/

theorem createProducerDirect_producers_shape (db : Db) (cpr : CreateProducerRequest)
    (username : String) (newStationId newProducerId now : Nat) :
    (createProducerDirect db cpr username newStationId newProducerId now).2.producers
        = db.producers ∨
    ∃ P : Producer, P.isActive = true ∧ P.isDeleted = false ∧
      (createProducerDirect db cpr username newStationId newProducerId now).2.producers
        = db.producers ++ [P] := by
  simp only [createProducerDirect, CreateDefaultStation]
  repeat' split
  all_goals first
    | exact Or.inl rfl
    | exact Or.inr ⟨_, rfl, rfl, rfl⟩

theorem createProducerDirect_mem_producers {db : Db} {cpr : CreateProducerRequest}
    {username : String} {newStationId newProducerId now : Nat} {q : Producer}
    (h : q ∈ (createProducerDirect db cpr username newStationId newProducerId now).2.producers) :
    q ∈ db.producers ∨ q.isDeleted = false := by
  rcases createProducerDirect_producers_shape db cpr username newStationId newProducerId now with
    heq | ⟨P, _, hPdel, heq⟩
  · exact Or.inl (heq ▸ h)
  · rw [heq] at h
    rcases List.mem_append.mp h with h | h
    · exact Or.inl h
    · right; rw [List.mem_singleton.mp h]; exact hPdel

theorem destroyProducerDirect_mem_producers {db : Db} {dpr : DestroyProducerRequest}
    {username : String} {now : Nat} {q : Producer}
    (h : q ∈ (destroyProducerDirect db dpr username now).2.producers) :
    q ∈ db.producers ∨ q.isActive = false := by
  simp only [destroyProducerDirect] at h
  split at h
  · simp only at h
    rcases mem_updateFirst h with h | ⟨u, _, _, hq⟩
    · exact Or.inl h
    · right; rw [hq]
  · exact Or.inl h

theorem KillProducers_mem_producers {db : Db} {connectionId now : Nat} {q : Producer}
    (h : q ∈ (KillProducers db connectionId now).producers) :
    (∃ u ∈ db.producers, q = u ∨ (q = { u with isActive := false })) := by
  simp only [KillProducers] at h
  split at h
  · exact ⟨q, h, Or.inl rfl⟩
  · simp only at h
    rcases mem_updateMany h with ⟨u, hu, hq⟩
    refine ⟨u, hu, ?_⟩
    split at hq
    · exact Or.inr hq
    · exact Or.inl hq

theorem ReliveProducers_mem_producers {db : Db} {connectionId : Nat} {q : Producer}
    (h : q ∈ (ReliveProducers db connectionId).producers) :
    (∃ u ∈ db.producers, q = u ∨ (u.isDeleted = false ∧ q = { u with isActive := true })) := by
  simp only [ReliveProducers] at h
  rcases mem_updateMany h with ⟨u, hu, hq⟩
  refine ⟨u, hu, ?_⟩
  by_cases hc : (u.connectionId == connectionId && !u.isDeleted) = true
  · rw [if_pos hc] at hq
    rcases Bool.and_eq_true_iff.mp hc with ⟨_, hdel⟩
    exact Or.inr ⟨by simpa using hdel, hq⟩
  · rw [if_neg hc] at hq
    exact Or.inl hq

/-- C3: every producer row reachable by any sequence of
createProducerDirect, destroyProducerDirect, KillProducers and
ReliveProducers operations satisfies is_deleted implies not is_active:
create writes (is_active=true, is_deleted=false), destroy writes
(false, true), kill only clears is_active, and relive sets is_active=true
only on rows with is_deleted=false. -/
theorem producer_deleted_not_active (db : Db) (h : PReach db) :
    ∀ p ∈ db.producers, p.isDeleted = true → p.isActive = false := by
  induction h with
  | init db hdb => intro p hp; rw [hdb] at hp; cases hp
  | create db cpr username sid pid now _ ih =>
    intro p hp hdel
    rcases createProducerDirect_mem_producers hp with h | h
    · exact ih p h hdel
    · rw [h] at hdel; cases hdel
  | destroy db dpr username now _ ih =>
    intro p hp hdel
    rcases destroyProducerDirect_mem_producers hp with h | h
    · exact ih p h hdel
    · exact h
  | kill db connectionId now _ ih =>
    intro p hp hdel
    rcases KillProducers_mem_producers hp with ⟨u, hu, hq | hq⟩
    · exact hq ▸ ih u hu (hq ▸ hdel)
    · rw [hq]
  | relive db connectionId _ ih =>
    intro p hp hdel
    rcases ReliveProducers_mem_producers hp with ⟨u, hu, hq | ⟨hudel, hq⟩⟩
    · exact hq ▸ ih u hu (hq ▸ hdel)
    · rw [hq] at hdel
      simp only at hdel
      rw [hudel] at hdel
      cases hdel

/- ### C4: destroy semantics and idempotence. -/

/-- The station id destroyProducerDirect resolves for its filter. -/
def destroySid (db : Db) (dpr : DestroyProducerRequest) : Option Nat :=
  (IsStationExist db (toLowerStr dpr.stationName)).map (fun s => s.id)

/-- Unfolding equation of destroyProducerDirect in terms of destroySid. -/
theorem destroyProducerDirect_eq (db : Db) (dpr : DestroyProducerRequest)
    (username : String) (now : Nat) :
    destroyProducerDirect db dpr username now =
      if db.producers.any
          (destroyMatch (destroySid db dpr) (toLowerStr dpr.producerName)) = true then
        (.ok (), { db with
          producers := updateFirst
            (destroyMatch (destroySid db dpr) (toLowerStr dpr.producerName))
            (fun p => { p with isActive := false, isDeleted := true }) db.producers,
          auditLogs := db.auditLogs ++
            [⟨toLowerStr dpr.stationName,
              "Producer " ++ toLowerStr dpr.producerName ++ " has been deleted",
              username, "application", now⟩] })
      else (.error "Producer does not exist", db) := rfl

theorem map_if_id_of_countP_zero {p : α → Bool} {f : α → α} {l : List α}
    (h : l.countP p = 0) : (l.map fun a => if p a = true then f a else a) = l := by
  have hall : ∀ a ∈ l, p a = false := by
    intro a ha
    cases hpa : p a
    · rfl
    · exfalso
      have : 0 < l.countP p := List.countP_pos_iff.mpr ⟨a, ha, hpa⟩
      omega
  calc (l.map fun a => if p a = true then f a else a) = l.map id := by
        apply List.map_congr_left
        intro a ha
        rw [hall a ha]
        simp
    _ = l := List.map_id l

theorem updateFirst_eq_map_of_countP_le_one {p : α → Bool} {f : α → α} {l : List α}
    (h : l.countP p ≤ 1) : updateFirst p f l = l.map fun a => if p a = true then f a else a := by
  induction l with
  | nil => rfl
  | cons a as ih =>
    rw [List.countP_cons] at h
    cases hpa : p a
    · have h2 : as.countP p ≤ 1 := by rw [hpa] at h; simpa using h
      simp [updateFirst, hpa, ih h2]
    · have h2 : as.countP p = 0 := by rw [hpa] at h; simpa using h
      simp [updateFirst, hpa, map_if_id_of_countP_zero h2]

/-- C4: destroyProducerDirect atomically turns the unique
(name, station_id, is_active=true) row into (is_active=false,
is_deleted=true) and leaves every other row unchanged; with no matching
row it fails with "Producer does not exist" and changes nothing; and a
second destroy immediately after a successful destroy returns that
not-found error and leaves the whole state unchanged. -/
theorem destroyProducer_spec (db : Db) (dpr : DestroyProducerRequest)
    (username : String) (now : Nat) :
    (db.producers.countP (destroyMatch (destroySid db dpr) (toLowerStr dpr.producerName)) = 1 →
      (destroyProducerDirect db dpr username now).1 = .ok () ∧
      (destroyProducerDirect db dpr username now).2.producers = db.producers.map fun p =>
        if destroyMatch (destroySid db dpr) (toLowerStr dpr.producerName) p = true then
          { p with isActive := false, isDeleted := true } else p) ∧
    ((∀ p ∈ db.producers,
        destroyMatch (destroySid db dpr) (toLowerStr dpr.producerName) p = false) →
      destroyProducerDirect db dpr username now = (.error "Producer does not exist", db)) ∧
    (db.producers.countP (destroyMatch (destroySid db dpr) (toLowerStr dpr.producerName)) = 1 →
      destroyProducerDirect (destroyProducerDirect db dpr username now).2 dpr username now =
        (.error "Producer does not exist", (destroyProducerDirect db dpr username now).2)) := by
  have hany_of_count : db.producers.countP
      (destroyMatch (destroySid db dpr) (toLowerStr dpr.producerName)) = 1 →
      db.producers.any (destroyMatch (destroySid db dpr) (toLowerStr dpr.producerName)) = true := by
    intro hcount
    have hpos : 0 < db.producers.countP
        (destroyMatch (destroySid db dpr) (toLowerStr dpr.producerName)) := by omega
    rcases List.countP_pos_iff.mp hpos with ⟨x, hx, hpx⟩
    exact List.any_eq_true.mpr ⟨x, hx, hpx⟩
  refine ⟨?_, ?_, ?_⟩
  · intro hcount
    rw [destroyProducerDirect_eq, if_pos (hany_of_count hcount)]
    exact ⟨rfl, updateFirst_eq_map_of_countP_le_one (by omega)⟩
  · intro hnone
    have hany : db.producers.any
        (destroyMatch (destroySid db dpr) (toLowerStr dpr.producerName)) = false := by
      rw [List.any_eq_false]
      intro x hx
      simp [hnone x hx]
    rw [destroyProducerDirect_eq, if_neg (by simp [hany])]
  · intro hcount
    have hprod : (destroyProducerDirect db dpr username now).2.producers =
        db.producers.map fun p =>
          if destroyMatch (destroySid db dpr) (toLowerStr dpr.producerName) p = true then
            { p with isActive := false, isDeleted := true } else p := by
      rw [destroyProducerDirect_eq, if_pos (hany_of_count hcount)]
      exact updateFirst_eq_map_of_countP_le_one (by omega)
    have hstations : (destroyProducerDirect db dpr username now).2.stations = db.stations := by
      rw [destroyProducerDirect_eq]
      split <;> rfl
    have hsid : destroySid (destroyProducerDirect db dpr username now).2 dpr =
        destroySid db dpr := by
      simp only [destroySid, IsStationExist, hstations]
    have hnone : ∀ p ∈ (destroyProducerDirect db dpr username now).2.producers,
        destroyMatch (destroySid db dpr) (toLowerStr dpr.producerName) p = false := by
      intro p hp
      rw [hprod] at hp
      rcases List.mem_map.mp hp with ⟨u, _, hu⟩
      by_cases hmu : destroyMatch (destroySid db dpr) (toLowerStr dpr.producerName) u = true
      · rw [if_pos hmu] at hu
        rw [← hu]
        simp [destroyMatch]
      · rw [if_neg hmu] at hu
        rw [← hu]
        exact Bool.eq_false_iff.mpr hmu
    have hany2 : (destroyProducerDirect db dpr username now).2.producers.any
        (destroyMatch (destroySid db dpr) (toLowerStr dpr.producerName)) = false := by
      rw [List.any_eq_false]
      intro x hx
      simp [hnone x hx]
    rw [destroyProducerDirect_eq, hsid, if_neg (by simp [hany2])]

/- ### C5: kill then relive. -/

/-- C5: for every connection, KillProducers followed by ReliveProducers
leaves every producer of that connection with is_active equal to the
negation of its is_deleted flag (so is_active=true is restored on exactly
the rows with is_deleted=false, and the rows with is_deleted=true end
inactive), and leaves producers of other connections unchanged. -/
theorem kill_then_relive_spec (db : Db) (connectionId now : Nat) :
    (ReliveProducers (KillProducers db connectionId now) connectionId).producers =
      db.producers.map fun p =>
        if p.connectionId == connectionId then { p with isActive := !p.isDeleted } else p := by
  simp only [ReliveProducers, KillProducers]
  split
  · next hEmpty =>
    have hnone : ∀ p ∈ db.producers, (p.connectionId == connectionId && p.isActive) = false := by
      intro p hp
      have hnil := List.isEmpty_iff.mp hEmpty
      cases hc : (p.connectionId == connectionId && p.isActive)
      · rfl
      · exfalso
        have hmem : p ∈ db.producers.filter
            (fun p => p.connectionId == connectionId && p.isActive) := by
          rw [List.mem_filter]
          exact ⟨hp, hc⟩
        rw [hnil] at hmem
        cases hmem
    simp only [updateMany]
    apply List.map_congr_left
    intro p hp
    have hq := hnone p hp
    obtain ⟨pid, pname, pst, pfid, pty, pconn, pcu, pact, pdel, pdate⟩ := p
    simp only at hq ⊢
    by_cases hconn : (pconn == connectionId) = true
    · rw [hconn] at hq
      simp only [Bool.true_and] at hq
      cases pdel <;> simp_all
    · have hconn2 : (pconn == connectionId) = false := Bool.eq_false_iff.mpr hconn
      simp [hconn2]
  · simp only [updateMany, List.map_map]
    apply List.map_congr_left
    intro p _
    obtain ⟨pid, pname, pst, pfid, pty, pconn, pcu, pact, pdel, pdate⟩ := p
    simp only [Function.comp]
    by_cases hconn : (pconn == connectionId) = true
    · cases pdel <;> simp [hconn]
    · have hconn2 : (pconn == connectionId) = false := Bool.eq_false_iff.mpr hconn
      simp [hconn2]

/- ### C9: producer name boundary validation. -/

def connW9 : Connection := ⟨1, true, "u1"⟩

def stationW9 : Station := ⟨2, "st1", 3, false⟩

def dbW9 : Db := ⟨[connW9], [stationW9], [], []⟩

/-- C9 counterexample: a create_producer request whose name contains an
uppercase letter is not rejected: the source lowercases the request name
before validateProducerName runs, so the request succeeds and inserts the
lowercased producer. -/
theorem createProducer_uppercase_accepted :
    (createProducerDirect dbW9 ⟨"A", "st1", 1, "application"⟩ "u1" 7 8 5).1 = .ok () ∧
    (createProducerDirect dbW9 ⟨"A", "st1", 1, "application"⟩ "u1" 7 8 5).2.producers =
      [⟨8, "a", 2, 3, "application", 1, "u1", true, false, 5⟩] := by
  constructor
  · decide
  · decide

/-- C9 (amended): createProducerDirect rejects a producer name of length 0
and a producer name of length 33; validateProducerName rejects a name (of
valid length) containing an uppercase letter, but createProducerDirect
lowercases the request name before validating it, so a request whose name
contains an uppercase letter is never rejected with the
invalid-characters error. -/
theorem producerName_boundaries_amended :
    (∀ (db : Db) (cpr : CreateProducerRequest) (username : String) (sid pid now : Nat),
      cpr.name = "" →
      createProducerDirect db cpr username sid pid now =
        (.error "Producer name can not be empty", db)) ∧
    (∀ (db : Db) (cpr : CreateProducerRequest) (username : String) (sid pid now : Nat),
      cpr.name.data.length = 33 →
      createProducerDirect db cpr username sid pid now =
        (.error "Producer name should be under 32 characters", db)) ∧
    (∀ name : String, name.data.length ≤ 32 →
      (∃ c ∈ name.data, 'A' ≤ c ∧ c ≤ 'Z') →
      validateProducerName name = some "Producer name has to include only letters and _") ∧
    (∀ (db : Db) (cpr : CreateProducerRequest) (username : String) (sid pid now : Nat),
      validateProducerName (toLowerStr cpr.name) = none →
      (createProducerDirect db cpr username sid pid now).1 ≠
        .error "Producer name has to include only letters and _") := by
  refine ⟨?_, ?_, ?_, ?_⟩
  · intro db cpr username sid pid now h
    have hv : validateProducerName (toLowerStr cpr.name) =
        some "Producer name can not be empty" := by
      rw [h]
      rfl
    simp only [createProducerDirect, hv]
  · intro db cpr username sid pid now h
    have hlen : (toLowerStr cpr.name).data.length = 33 := by
      simp [toLowerStr, h]
    have hv : validateProducerName (toLowerStr cpr.name) =
        some "Producer name should be under 32 characters" := by
      unfold validateProducerName
      rw [hlen, if_neg (by omega), if_pos (by omega)]
    simp only [createProducerDirect, hv]
  · intro name hlen ⟨c, hc, hA, hZ⟩
    have hcbad : isNameChar c = false := by
      unfold isNameChar
      have h1 : (decide ('a' ≤ c) && decide (c ≤ 'z')) = false := by
        rw [Bool.and_eq_false_iff]
        left
        rw [decide_eq_false_iff_not]
        exact fun hac => absurd (le_trans hac hZ) (by decide)
      have h2 : (decide ('0' ≤ c) && decide (c ≤ '9')) = false := by
        rw [Bool.and_eq_false_iff]
        right
        rw [decide_eq_false_iff_not]
        exact fun hc9 => absurd (le_trans hA hc9) (by decide)
      have h3 : decide (c = '_') = false := by
        rw [decide_eq_false_iff_not]
        intro hcu
        rw [hcu] at hZ
        exact absurd hZ (by decide)
      rw [h1, h2, h3]
      rfl
    have hall : name.data.all isNameChar = false := by
      cases hA2 : name.data.all isNameChar
      · rfl
      · exfalso
        have hcontra := List.all_eq_true.mp hA2 c hc
        rw [hcbad] at hcontra
        cases hcontra
    unfold validateProducerName
    have h0 : name.data.length ≠ 0 := by
      intro h0
      rw [List.length_eq_zero] at h0
      rw [h0] at hc
      cases hc
    rw [if_neg h0, if_neg (by omega), if_pos (by rw [hall]; rfl)]
  · intro db cpr username sid pid now hv hbad
    rw [createProducerDirect] at hbad
    rw [hv] at hbad
    simp only at hbad
    rcases h2 : validateProducerType (toLowerStr cpr.producerType) with _ | e
    · rw [h2] at hbad
      simp only at hbad
      rcases h3 : IsConnectionExist db cpr.connectionId with _ | conn
      · rw [h3] at hbad
        simp only at hbad
        exact absurd hbad (by decide)
      · rw [h3] at hbad
        simp only at hbad
        split at hbad
        · simp only at hbad
          exact absurd hbad (by decide)
        · split at hbad
          · simp only at hbad
            exact absurd hbad (by decide)
          · cases hbad
    · rw [h2] at hbad
      simp only at hbad
      have he : e = "Producer type has to be one of the following application/connector" := by
        revert h2
        unfold validateProducerType
        split
        · intro h; cases h; rfl
        · intro h; cases h
      rw [he] at hbad
      exact absurd hbad (by decide)

/- ### C1: CreateNewSchema. -/

/-- C1: for a CreateSchema request whose name, type, content and message
struct name pass validation, a request whose schema name already has a row
(the state in which the upsert matches) fails with "already exists" and
inserts no schema row and no SchemaVersion; in the state where the upsert
actually inserts, exactly the new schema row and exactly one SchemaVersion
with version_number=1 and active=true for it are appended. -/
theorem CreateNewSchema_spec (proto : String → Option String) (db : SDb)
    (body : CreateNewSchemaRequest) (user : String) (newSchemaId newVersionId now : Nat)
    (hname : validateSchemaName (toLowerStr body.name) = none)
    (htype : validateSchemaType (toLowerStr body.type) = none)
    (hmsn : toLowerStr body.type = "protobuf" →
      validateMessageStructName body.messageStructName = none)
    (hcontent : validateSchemaContent proto body.schemaContent (toLowerStr body.type) = none) :
    (db.schemas.any (fun s => s.name == toLowerStr body.name) = true →
      CreateNewSchema proto db body user newSchemaId newVersionId now =
        (.showableErr "Schema with that name already exists", db)) ∧
    (db.schemas.any (fun s => s.name == toLowerStr body.name) = false →
      CreateNewSchema proto db body user newSchemaId newVersionId now =
        (.ok, ⟨db.schemas ++ [⟨newSchemaId, toLowerStr body.name, toLowerStr body.type⟩],
          db.schemaVersions ++ [⟨newVersionId, 1, true, user, now, body.schemaContent,
            newSchemaId, body.messageStructName⟩]⟩)) := by
  have hmsn2 : (if toLowerStr body.type = "protobuf"
      then validateMessageStructName body.messageStructName else none) = none := by
    by_cases hpb : toLowerStr body.type = "protobuf"
    · rw [if_pos hpb]
      exact hmsn hpb
    · rw [if_neg hpb]
  constructor
  · intro hany
    have hfind : (IsSchemaExist db (toLowerStr body.name)).isSome = true := by
      rcases List.any_eq_true.mp hany with ⟨x, hx, hpx⟩
      exact List.find?_isSome.mpr ⟨x, hx, hpx⟩
    simp only [CreateNewSchema, hname, hfind, if_pos]
  · intro hany
    have hfind : IsSchemaExist db (toLowerStr body.name) = none := by
      simp only [IsSchemaExist]
      rw [List.find?_eq_none]
      intro x hx
      have hfx := List.any_eq_false.mp hany x hx
      simp [hfx]
    simp only [CreateNewSchema, hname, hfind, htype, hmsn2, hcontent, hany,
      Option.isSome_none, Bool.false_eq_true, if_false]

/- ### C2: CreateNewVersion. -/

/-- C2: for a CreateVersion request on an existing schema with valid
content (and message struct name when the stored type is protobuf), the
new version number is the count of the schema's versions plus one; when a
version document with that key already exists (the state in which the
upsert matches) the handler fails with "Version already exists" and
inserts nothing, otherwise exactly one version with that number and
active=false is appended. -/
theorem CreateNewVersion_spec (proto : String → Option String) (db : SDb)
    (body : CreateNewVersionRequest) (user : String) (newVersionId now : Nat)
    (schema : Schema)
    (hschema : IsSchemaExist db (toLowerStr body.schemaName) = some schema)
    (hmsn : schema.type = "protobuf" →
      validateMessageStructName body.messageStructName = none)
    (hcontent : validateSchemaContent proto body.schemaContent schema.type = none) :
    (db.schemaVersions.any (fun v => v.schemaId == schema.id &&
        v.versionNumber == getVersionsCount db schema.id + 1) = true →
      CreateNewVersion proto db body user newVersionId now =
        (.showableErr "Version already exists", db)) ∧
    (db.schemaVersions.any (fun v => v.schemaId == schema.id &&
        v.versionNumber == getVersionsCount db schema.id + 1) = false →
      CreateNewVersion proto db body user newVersionId now =
        (.ok, ⟨db.schemas, db.schemaVersions ++
          [⟨newVersionId, getVersionsCount db schema.id + 1, false, user, now,
            body.schemaContent, schema.id, body.messageStructName⟩]⟩)) := by
  have hmsn2 : (if schema.type = "protobuf"
      then validateMessageStructName body.messageStructName else none) = none := by
    by_cases hpb : schema.type = "protobuf"
    · rw [if_pos hpb]
      exact hmsn hpb
    · rw [if_neg hpb]
  constructor
  · intro hany
    simp only [CreateNewVersion, hschema, hmsn2, hcontent, hany]
    rfl
  · intro hany
    simp only [CreateNewVersion, hschema, hmsn2, hcontent, hany]
    rfl

/- ### C6: RollBackVersion. -/

theorem updateFirst_exists_mem {q : α → Bool} {f : α → α} {l : List α}
    (h : ∃ a ∈ l, q a = true) : ∃ u ∈ l, q u = true ∧ f u ∈ updateFirst q f l := by
  induction l with
  | nil => rcases h with ⟨a, ha, _⟩; cases ha
  | cons a as ih =>
    cases hqa : q a
    · rcases h with ⟨b, hb, hqb⟩
      rcases List.mem_cons.mp hb with rfl | hb2
      · rw [hqa] at hqb; cases hqb
      · rcases ih ⟨b, hb2, hqb⟩ with ⟨u, hu, hqu, hmem⟩
        refine ⟨u, List.mem_cons_of_mem _ hu, hqu, ?_⟩
        simp only [updateFirst, hqa]
        rw [if_neg (by simp)]
        exact List.mem_cons_of_mem _ hmem
    · refine ⟨a, List.mem_cons_self a as, hqa, ?_⟩
      simp only [updateFirst, hqa, if_pos rfl]
      exact List.mem_cons_self _ _

/-- C6: RollbackVersion requires both the schema and the target version to
exist; with at least two versions it succeeds and afterwards the target
version number is the only version of that schema carrying active=true;
with a single version it succeeds without changing anything. -/
theorem RollBackVersion_spec (db : SDb) (body : RollBackVersionRequest) :
    (IsSchemaExist db (toLowerStr body.schemaName) = none →
      RollBackVersion db body = (.showableErr "Schema does not exist", db)) ∧
    (∀ schema, IsSchemaExist db (toLowerStr body.schemaName) = some schema →
      isSchemaVersionExists db body.versionNumber schema.id = false →
      RollBackVersion db body = (.showableErr "Schema version does not exist", db)) ∧
    (∀ schema, IsSchemaExist db (toLowerStr body.schemaName) = some schema →
      isSchemaVersionExists db body.versionNumber schema.id = true →
      getVersionsCount db schema.id > 1 →
      (RollBackVersion db body).1 = .ok ∧
      (∃ v ∈ (RollBackVersion db body).2.schemaVersions,
        v.schemaId = schema.id ∧ v.versionNumber = body.versionNumber ∧ v.active = true) ∧
      (∀ v ∈ (RollBackVersion db body).2.schemaVersions,
        v.schemaId = schema.id → v.active = true → v.versionNumber = body.versionNumber)) ∧
    (∀ schema, IsSchemaExist db (toLowerStr body.schemaName) = some schema →
      isSchemaVersionExists db body.versionNumber schema.id = true →
      getVersionsCount db schema.id ≤ 1 →
      RollBackVersion db body = (.ok, db)) := by
  refine ⟨?_, ?_, ?_, ?_⟩
  · intro hnone
    simp only [RollBackVersion, hnone]
  · intro schema hschema hver
    simp only [RollBackVersion, hschema, hver]
    rfl
  · intro schema hschema hver hcount
    have hbranch : RollBackVersion db body =
        (.ok, updateActiveVersion db schema.id body.versionNumber) := by
      simp only [RollBackVersion, hschema, hver]
      rw [if_neg (by simp), if_pos (by omega)]
    rw [hbranch]
    refine ⟨rfl, ?_, ?_⟩
    · have hex : ∃ a ∈ updateMany (fun v => v.schemaId == schema.id)
          (fun v => { v with active := false }) db.schemaVersions,
          (fun v => v.schemaId == schema.id && v.versionNumber == body.versionNumber) a
            = true := by
        rcases List.any_eq_true.mp hver with ⟨w, hw, hpw⟩
        refine ⟨if w.schemaId == schema.id then { w with active := false } else w, ?_, ?_⟩
        · exact List.mem_map.mpr ⟨w, hw, rfl⟩
        · rcases Bool.and_eq_true_iff.mp hpw with ⟨h1, h2⟩
          rw [h1]
          simp only [if_pos rfl]
          rw [Bool.and_eq_true_iff]
          exact ⟨by simpa using h1, by simpa using h2⟩
      rcases updateFirst_exists_mem hex with ⟨u, _, hqu, hmem⟩
      rcases Bool.and_eq_true_iff.mp hqu with ⟨h1, h2⟩
      refine ⟨{ u with active := true }, ?_, by simpa using h1, by simpa using h2, rfl⟩
      simpa only [updateActiveVersion] using hmem
    · intro v hv hsid hact
      simp only [updateActiveVersion] at hv
      rcases mem_updateFirst hv with hv2 | ⟨u, _, hqu, hvu⟩
      · exfalso
        rcases List.mem_map.mp hv2 with ⟨w, _, hw⟩
        by_cases hws : (w.schemaId == schema.id) = true
        · rw [if_pos hws] at hw
          rw [← hw] at hact
          cases hact
        · rw [if_neg hws] at hw
          rw [← hw] at hsid
          exact hws (by simp [hsid])
      · rcases Bool.and_eq_true_iff.mp hqu with ⟨_, h2⟩
        rw [hvu]
        simpa using h2
  · intro schema hschema hver hcount
    simp only [RollBackVersion, hschema, hver]
    rw [if_neg (by simp), if_neg (by omega)]

/- ### C8: ValidateSchema versus the CreateSchema rules. -/

/-- The always-succeeding protobuf parser oracle used by concrete runs. -/
def protoOkW : String → Option String := fun _ => none

/-- C8 counterexample: with schema type protobuf and an empty message
struct name, ValidateSchema answers is_valid while CreateNewSchema (on an
otherwise identical, passing request) rejects with the
message-struct-name validation error, so ValidateSchema does not apply the
same rules as CreateSchema. -/
theorem ValidateSchema_msn_counterexample :
    (ValidateSchema protoOkW ⟨[], []⟩ ⟨"protobuf", "m", ""⟩).1 = .ok ∧
    (CreateNewSchema protoOkW ⟨[], []⟩ ⟨"s1", "protobuf", "m", ""⟩ "u" 1 2 0).1 =
      .showableErr "Message struct name is required when schema type is Protobuf" := by
  constructor
  · decide
  · decide

/-- C8 (amended): ValidateSchema applies CreateSchema's type and content
rules, performs no writes and never reads message_struct_name: it answers
is_valid exactly when the type and content rules pass, routes a type error
to the showable status and a content error to the schema-validation
status, and its result is unchanged under any message_struct_name. -/
theorem ValidateSchema_amended_spec (proto : String → Option String) (db : SDb)
    (body : ValidateSchemaRequest) :
    ((ValidateSchema proto db body).2 = db) ∧
    (∀ msn, ValidateSchema proto db body =
      ValidateSchema proto db ⟨body.schemaType, body.schemaContent, msn⟩) ∧
    ((ValidateSchema proto db body).1 = .ok ↔
      (validateSchemaType (toLowerStr body.schemaType) = none ∧
       validateSchemaContent proto body.schemaContent (toLowerStr body.schemaType) = none)) ∧
    (∀ e, validateSchemaType (toLowerStr body.schemaType) = some e →
      (ValidateSchema proto db body).1 = .showableErr e) ∧
    (∀ e, validateSchemaType (toLowerStr body.schemaType) = none →
      validateSchemaContent proto body.schemaContent (toLowerStr body.schemaType) = some e →
      (ValidateSchema proto db body).1 = .schemaValidationErr e) := by
  refine ⟨?_, ?_, ?_, ?_, ?_⟩
  · simp only [ValidateSchema]
    rcases h1 : validateSchemaType (toLowerStr body.schemaType) with _ | e
    · rcases h2 : validateSchemaContent proto body.schemaContent (toLowerStr body.schemaType)
        with _ | e
      · rfl
      · rfl
    · rfl
  · intro msn
    rfl
  · simp only [ValidateSchema]
    rcases h1 : validateSchemaType (toLowerStr body.schemaType) with _ | e
    · rcases h2 : validateSchemaContent proto body.schemaContent (toLowerStr body.schemaType)
        with _ | e
      · simp
      · simp
    · simp
  · intro e h1
    simp only [ValidateSchema, h1]
  · intro e h1 h2
    simp only [ValidateSchema, h1, h2]

/- ### C10: getStationOverviewData error handling. -/

/-- C10: getStationOverviewData reports an error only for a failing
station lookup or a nonexistent station; once the station is found, a
failure of any of the five subsequent reads yields the empty snapshot
with a nil error, which is exactly the snapshot of a genuinely empty
station. -/
theorem getStationOverviewData_spec (env : OverviewReads) :
    (∀ e, env.stationRead = .error e →
      getStationOverviewData env = .error .store) ∧
    (env.stationRead = .ok none →
      getStationOverviewData env = .error .stationDoesNotExist) ∧
    (∀ st, env.stationRead = .ok (some st) →
      (env.producersRead = .error () ∨ env.consumersRead = .error () ∨
       env.auditLogsRead = .error () ∨ env.totalMessagesRead = .error () ∨
       env.avgMsgSizeRead = .error ()) →
      getStationOverviewData env = .ok emptyStationOverview) ∧
    (∀ st, env.stationRead = .ok (some st) →
      env.producersRead = .ok [] → env.consumersRead = .ok [] →
      env.auditLogsRead = .ok [] → env.totalMessagesRead = .ok 0 →
      env.avgMsgSizeRead = .ok 0 →
      getStationOverviewData env = .ok emptyStationOverview) ∧
    (∀ st, env.stationRead = .ok (some st) →
      ∃ d, getStationOverviewData env = .ok d) := by
  refine ⟨?_, ?_, ?_, ?_, ?_⟩
  · intro e h
    simp only [getStationOverviewData, h]
  · intro h
    simp only [getStationOverviewData, h]
  · intro st h hfail
    simp only [getStationOverviewData, h]
    rcases hP : env.producersRead with eP | vP
    · rfl
    · rcases hC : env.consumersRead with eC | vC
      · rfl
      · rcases hA : env.auditLogsRead with eA | vA
        · rfl
        · rcases hT : env.totalMessagesRead with eT | vT
          · rfl
          · rcases hM : env.avgMsgSizeRead with eM | vM
            · rfl
            · exfalso
              rcases hfail with hf | hf | hf | hf | hf
              · rw [hf] at hP; cases hP
              · rw [hf] at hC; cases hC
              · rw [hf] at hA; cases hA
              · rw [hf] at hT; cases hT
              · rw [hf] at hM; cases hM
  · intro st h hP hC hA hT hM
    simp only [getStationOverviewData, h, hP, hC, hA, hT, hM]
    rfl
  · intro st h
    simp only [getStationOverviewData, h]
    rcases hP : env.producersRead with eP | vP
    · exact ⟨_, rfl⟩
    · rcases hC : env.consumersRead with eC | vC
      · exact ⟨_, rfl⟩
      · rcases hA : env.auditLogsRead with eA | vA
        · exact ⟨_, rfl⟩
        · rcases hT : env.totalMessagesRead with eT | vT
          · exact ⟨_, rfl⟩
          · rcases hM : env.avgMsgSizeRead with eM | vM
            · exact ⟨_, rfl⟩
            · exact ⟨_, rfl⟩

/- ### C7: station overview deduplication and partitioning. -/

/-- Reference one-pass name dedup keeping the first (newest, on a
date-descending input) row of each name; the three partitions of
GetProducersByStation together are a permutation of it. -/
def dedupNames : List Producer → List String → List Producer
  | [], _ => []
  | p :: rest, seen =>
    if seen.contains p.name then dedupNames rest seen
    else p :: dedupNames rest (p.name :: seen)

theorem dedupNames_mem : ∀ {l : List Producer} {seen : List String} {x : Producer},
    x ∈ dedupNames l seen → x ∈ l ∧ seen.contains x.name = false := by
  intro l
  induction l with
  | nil => intro seen x hx; cases hx
  | cons p rest ih =>
    intro seen x hx
    simp only [dedupNames] at hx
    by_cases hseen : seen.contains p.name = true
    · rw [if_pos hseen] at hx
      rcases ih hx with ⟨h1, h2⟩
      exact ⟨List.mem_cons_of_mem _ h1, h2⟩
    · rw [if_neg hseen] at hx
      rcases List.mem_cons.mp hx with rfl | hx2
      · exact ⟨List.mem_cons_self _ _, Bool.eq_false_iff.mpr hseen⟩
      · rcases ih hx2 with ⟨h1, h3⟩
        rw [List.contains_cons] at h3
        rcases Bool.or_eq_false_iff.mp h3 with ⟨_, h5⟩
        exact ⟨List.mem_cons_of_mem _ h1, h5⟩

theorem dedupNames_pairwise : ∀ (l : List Producer) (seen : List String),
    (dedupNames l seen).Pairwise (fun a b => a.name ≠ b.name) := by
  intro l
  induction l with
  | nil => intro seen; exact List.Pairwise.nil
  | cons p rest ih =>
    intro seen
    simp only [dedupNames]
    by_cases hseen : seen.contains p.name = true
    · rw [if_pos hseen]
      exact ih seen
    · rw [if_neg hseen]
      refine List.Pairwise.cons ?_ (ih _)
      intro b hb heq
      rcases dedupNames_mem hb with ⟨_, hbseen⟩
      rw [List.contains_cons] at hbseen
      rcases Bool.or_eq_false_iff.mp hbseen with ⟨h1, _⟩
      exact absurd heq.symm (by simpa using h1)

theorem dedupNames_covers : ∀ {l : List Producer} {seen : List String} {q : Producer},
    q ∈ l → seen.contains q.name = false →
    ∃ x ∈ dedupNames l seen, x.name = q.name := by
  intro l
  induction l with
  | nil => intro seen q hq; cases hq
  | cons p rest ih =>
    intro seen q hq hseen
    simp only [dedupNames]
    by_cases hps : seen.contains p.name = true
    · rw [if_pos hps]
      rcases List.mem_cons.mp hq with rfl | hq2
      · rw [hps] at hseen; cases hseen
      · exact ih hq2 hseen
    · rw [if_neg hps]
      rcases List.mem_cons.mp hq with rfl | hq2
      · exact ⟨q, List.mem_cons_self _ _, rfl⟩
      · by_cases hname : q.name = p.name
        · exact ⟨p, List.mem_cons_self _ _, hname.symm⟩
        · have hseen2 : (p.name :: seen).contains q.name = false := by
            rw [List.contains_cons, Bool.or_eq_false_iff]
            exact ⟨by simpa using hname, hseen⟩
          rcases ih hq2 hseen2 with ⟨x, hx, hxn⟩
          exact ⟨x, List.mem_cons_of_mem _ hx, hxn⟩

theorem dedupNames_max : ∀ (l : List Producer) (seen : List String),
    List.Sorted prodDateGe l →
    ∀ x ∈ dedupNames l seen, ∀ q ∈ l, q.name = x.name →
      q.creationDate ≤ x.creationDate := by
  intro l
  induction l with
  | nil => intro seen _ x hx; cases hx
  | cons p rest ih =>
    intro seen hsort x hx q hq hname
    rcases List.sorted_cons.mp hsort with ⟨hhead, htail⟩
    simp only [dedupNames] at hx
    by_cases hps : seen.contains p.name = true
    · rw [if_pos hps] at hx
      rcases List.mem_cons.mp hq with rfl | hq2
      · exfalso
        rcases dedupNames_mem hx with ⟨_, hxs⟩
        rw [← hname] at hxs
        rw [hps] at hxs
        cases hxs
      · exact ih seen htail x hx q hq2 hname
    · rw [if_neg hps] at hx
      rcases List.mem_cons.mp hx with rfl | hx2
      · rcases List.mem_cons.mp hq with rfl | hq2
        · exact le_refl _
        · exact hhead q hq2
      · rcases List.mem_cons.mp hq with hqp | hq2
        · exfalso
          rcases dedupNames_mem hx2 with ⟨_, hxs⟩
          rw [List.contains_cons] at hxs
          rcases Bool.or_eq_false_iff.mp hxs with ⟨h1, _⟩
          have h1n : x.name ≠ p.name := by simpa using h1
          rw [hqp] at hname
          exact h1n hname.symm
        · exact ih (p.name :: seen) htail x hx2 q hq2 hname

theorem partitionProducers_flags : ∀ (l : List Producer) (seen : List String),
    (∀ x ∈ (partitionProducers l seen).1, x.isActive = true) ∧
    (∀ x ∈ (partitionProducers l seen).2.1, x.isActive = false ∧ x.isDeleted = false) ∧
    (∀ x ∈ (partitionProducers l seen).2.2, x.isDeleted = true) := by
  intro l
  induction l with
  | nil =>
    intro seen
    refine ⟨?_, ?_, ?_⟩ <;> intro x hx <;> cases hx
  | cons p rest ih =>
    intro seen
    by_cases hseen : seen.contains p.name = true
    · simpa only [partitionProducers, if_pos hseen] using ih seen
    · rcases ih (p.name :: seen) with ⟨ihc, ihd, ihdel⟩
      simp only [partitionProducers, if_neg hseen]
      cases hact : p.isActive
      · cases hdel : p.isDeleted
        · simp only [hact, hdel, Bool.false_eq_true, if_false, Bool.not_false,
            Bool.and_true, if_true]
          refine ⟨ihc, ?_, ihdel⟩
          intro x hx
          rcases List.mem_cons.mp hx with rfl | hx2
          · exact ⟨hact, hdel⟩
          · exact ihd x hx2
        · simp only [hact, hdel, Bool.false_eq_true, if_false, Bool.not_true,
            Bool.and_false, if_true]
          refine ⟨ihc, ihd, ?_⟩
          intro x hx
          rcases List.mem_cons.mp hx with rfl | hx2
          · exact hdel
          · exact ihdel x hx2
      · simp only [hact, if_true]
        refine ⟨?_, ihd, ihdel⟩
        intro x hx
        rcases List.mem_cons.mp hx with rfl | hx2
        · exact hact
        · exact ihc x hx2

theorem partitionProducers_perm : ∀ (l : List Producer) (seen : List String),
    ((partitionProducers l seen).1 ++ (partitionProducers l seen).2.1 ++
      (partitionProducers l seen).2.2).Perm (dedupNames l seen) := by
  intro l
  induction l with
  | nil => intro seen; exact List.Perm.refl _
  | cons p rest ih =>
    intro seen
    by_cases hseen : seen.contains p.name = true
    · simpa only [partitionProducers, dedupNames, if_pos hseen] using ih seen
    · simp only [partitionProducers, dedupNames, if_neg hseen]
      cases hact : p.isActive
      · cases hdel : p.isDeleted
        · simp only [hact, hdel, Bool.false_eq_true, if_false, Bool.not_false,
            Bool.and_true, if_true]
          exact ((List.perm_middle).append_right _).trans ((ih (p.name :: seen)).cons p)
        · simp only [hact, hdel, Bool.false_eq_true, if_false, Bool.not_true,
            Bool.and_false, if_true]
          exact (List.perm_middle).trans ((ih (p.name :: seen)).cons p)
      · simp only [hact, if_true]
        exact (ih (p.name :: seen)).cons p

/-- C7: in the station overview, the three partitions of
GetProducersByStation surface at most one row per producer name (and at
least one for every name present on the station); each surfaced row is a
station row whose creation_date is maximal among the station rows of the
same name (so only the newest row per name is surfaced and all older rows
are hidden); the partition a row lands in is determined by its flags
(connected for is_active=true, is_deleted=false; disconnected for
false,false; deleted for is_deleted=true); and each partition is sorted by
creation_date descending. -/
theorem GetProducersByStation_spec (db : Db) (station : Station)
    (hInv : ∀ p ∈ db.producers, p.isDeleted = true → p.isActive = false) :
    (∀ p ∈ (GetProducersByStation db station).1,
      p.isActive = true ∧ p.isDeleted = false) ∧
    (∀ p ∈ (GetProducersByStation db station).2.1,
      p.isActive = false ∧ p.isDeleted = false) ∧
    (∀ p ∈ (GetProducersByStation db station).2.2, p.isDeleted = true) ∧
    ((GetProducersByStation db station).1 ++ (GetProducersByStation db station).2.1 ++
      (GetProducersByStation db station).2.2).Pairwise (fun a b => a.name ≠ b.name) ∧
    (∀ p ∈ (GetProducersByStation db station).1 ++ (GetProducersByStation db station).2.1 ++
      (GetProducersByStation db station).2.2,
      p ∈ db.producers.filter (fun q => q.stationId == station.id) ∧
      ∀ q ∈ db.producers.filter (fun q => q.stationId == station.id),
        q.name = p.name → q.creationDate ≤ p.creationDate) ∧
    (∀ q ∈ db.producers.filter (fun q => q.stationId == station.id),
      ∃ p ∈ (GetProducersByStation db station).1 ++ (GetProducersByStation db station).2.1 ++
        (GetProducersByStation db station).2.2, p.name = q.name) ∧
    (List.Sorted prodDateGe (GetProducersByStation db station).1 ∧
     List.Sorted prodDateGe (GetProducersByStation db station).2.1 ∧
     List.Sorted prodDateGe (GetProducersByStation db station).2.2) := by
  have hrows_perm : (sortByDateDesc (db.producers.filter
        fun q => q.stationId == station.id)).Perm
      (db.producers.filter fun q => q.stationId == station.id) :=
    List.perm_insertionSort _ _
  have hsort : List.Sorted prodDateGe
      (sortByDateDesc (db.producers.filter fun q => q.stationId == station.id)) :=
    List.sorted_insertionSort _ _
  set ps := sortByDateDesc (db.producers.filter fun q => q.stationId == station.id) with hpsdef
  set t := partitionProducers ps [] with htdef
  have h1 : (GetProducersByStation db station).1 = sortByDateDesc t.1 := rfl
  have h2 : (GetProducersByStation db station).2.1 = sortByDateDesc t.2.1 := rfl
  have h3 : (GetProducersByStation db station).2.2 = sortByDateDesc t.2.2 := rfl
  have hpc : (sortByDateDesc t.1).Perm t.1 := List.perm_insertionSort _ _
  have hpd : (sortByDateDesc t.2.1).Perm t.2.1 := List.perm_insertionSort _ _
  have hpdel : (sortByDateDesc t.2.2).Perm t.2.2 := List.perm_insertionSort _ _
  have hsurf : (t.1 ++ t.2.1 ++ t.2.2).Perm (dedupNames ps []) := partitionProducers_perm ps []
  have hSperm : ((GetProducersByStation db station).1 ++
      (GetProducersByStation db station).2.1 ++
      (GetProducersByStation db station).2.2).Perm (dedupNames ps []) := by
    rw [h1, h2, h3]
    exact ((hpc.append hpd).append hpdel).trans hsurf
  have hflags := partitionProducers_flags ps []
  have hps_to_db : ∀ x, x ∈ ps → x ∈ db.producers := by
    intro x hx
    exact (List.mem_filter.mp (hrows_perm.mem_iff.mp hx)).1
  have hmem_ps : ∀ x, x ∈ t.1 ++ t.2.1 ++ t.2.2 → x ∈ ps := by
    intro x hx
    exact (dedupNames_mem (hsurf.mem_iff.mp hx)).1
  refine ⟨?_, ?_, ?_, ?_, ?_, ?_, ?_, ?_, ?_⟩
  · intro p hp
    rw [h1] at hp
    have hp1 := hpc.mem_iff.mp hp
    have hact := hflags.1 p hp1
    refine ⟨hact, ?_⟩
    have hdb : p ∈ db.producers :=
      hps_to_db p (hmem_ps p (List.mem_append_left _ (List.mem_append_left _ hp1)))
    cases hdel : p.isDeleted
    · rfl
    · exfalso
      have hcontra := hInv p hdb hdel
      rw [hact] at hcontra
      cases hcontra
  · intro p hp
    rw [h2] at hp
    exact hflags.2.1 p (hpd.mem_iff.mp hp)
  · intro p hp
    rw [h3] at hp
    exact hflags.2.2 p (hpdel.mem_iff.mp hp)
  · exact (hSperm.pairwise_iff fun h e => h e.symm).mpr (dedupNames_pairwise ps [])
  · intro p hp
    have hdedup := hSperm.mem_iff.mp hp
    have hinps := (dedupNames_mem hdedup).1
    refine ⟨hrows_perm.mem_iff.mp hinps, ?_⟩
    intro q hq hname
    exact dedupNames_max ps [] hsort p hdedup q (hrows_perm.mem_iff.mpr hq) hname
  · intro q hq
    have hqps : q ∈ ps := hrows_perm.mem_iff.mpr hq
    have hnil : ([] : List String).contains q.name = false := rfl
    rcases dedupNames_covers hqps hnil with ⟨x, hx, hxn⟩
    exact ⟨x, hSperm.mem_iff.mpr hx, hxn⟩
  · rw [h1]
    exact List.sorted_insertionSort _ _
  · rw [h2]
    exact List.sorted_insertionSort _ _
  · rw [h3]
    exact List.sorted_insertionSort _ _

/- ### Concrete witnesses. -/

def dbW3 : Db := ⟨[⟨1, true, "u"⟩], [⟨2, "st", 0, false⟩], [], []⟩

def cprW3 : CreateProducerRequest := ⟨"p1", "st", 1, "application"⟩

def dbW3b : Db := (createProducerDirect dbW3 cprW3 "u" 7 8 5).2

def dbW3c : Db := (destroyProducerDirect dbW3b ⟨"st", "p1"⟩ "u" 6).2

def pW3 : Producer := ⟨8, "p1", 2, 0, "application", 1, "u", false, true, 5⟩

/-- Witness for the C3 invariant: after a concrete create-then-destroy run
the destroyed row is inactive. -/
theorem producer_deleted_not_active_witness : pW3.isActive = false :=
  producer_deleted_not_active dbW3c
    (PReach.destroy dbW3b ⟨"st", "p1"⟩ "u" 6
      (PReach.create dbW3 cprW3 "u" 7 8 5 (PReach.init dbW3 rfl)))
    pW3 (by decide) (by decide)

def dbW4 : Db :=
  ⟨[], [⟨2, "st", 0, false⟩], [⟨8, "p1", 2, 0, "application", 1, "u", true, false, 5⟩], []⟩

def dprW4 : DestroyProducerRequest := ⟨"st", "p1"⟩

/-- Witness for C4 at a concrete store: the first destroy succeeds and
flips the row, the second returns not-found and changes nothing. -/
theorem destroyProducer_spec_witness :
    ((destroyProducerDirect dbW4 dprW4 "u" 6).1 = .ok () ∧
      (destroyProducerDirect dbW4 dprW4 "u" 6).2.producers = dbW4.producers.map fun p =>
        if destroyMatch (destroySid dbW4 dprW4) (toLowerStr dprW4.producerName) p = true then
          { p with isActive := false, isDeleted := true } else p) ∧
    destroyProducerDirect (destroyProducerDirect dbW4 dprW4 "u" 6).2 dprW4 "u" 6 =
      (.error "Producer does not exist", (destroyProducerDirect dbW4 dprW4 "u" 6).2) :=
  ⟨(destroyProducer_spec dbW4 dprW4 "u" 6).1 (by decide),
    (destroyProducer_spec dbW4 dprW4 "u" 6).2.2 (by decide)⟩

/-- Witness for C1 at a concrete request on an empty store: the schema row
and the single version-1 active SchemaVersion are inserted. -/
theorem CreateNewSchema_spec_witness :
    CreateNewSchema protoOkW ⟨[], []⟩ ⟨"s2", "protobuf", "m", "M"⟩ "u" 1 2 0 =
      (.ok, ⟨[⟨1, "s2", "protobuf"⟩], [⟨2, 1, true, "u", 0, "m", 1, "M"⟩]⟩) :=
  (CreateNewSchema_spec protoOkW ⟨[], []⟩ ⟨"s2", "protobuf", "m", "M"⟩ "u" 1 2 0
    (by decide) (by decide) (fun _ => by decide) (by decide)).2 (by decide)

def sdbW2 : SDb := ⟨[⟨5, "sch", "protobuf"⟩], [⟨6, 1, true, "u", 0, "c", 5, "M"⟩]⟩

/-- Witness for C2 at a concrete store with one existing version: the new
version is written with number 2 and active=false. -/
theorem CreateNewVersion_spec_witness :
    CreateNewVersion protoOkW sdbW2 ⟨"sch", "c2", "M2"⟩ "u" 7 1 =
      (.ok, ⟨sdbW2.schemas, sdbW2.schemaVersions ++ [⟨7, 2, false, "u", 1, "c2", 5, "M2"⟩]⟩) :=
  (CreateNewVersion_spec protoOkW sdbW2 ⟨"sch", "c2", "M2"⟩ "u" 7 1 ⟨5, "sch", "protobuf"⟩
    (by decide) (fun _ => by decide) (by decide)).2 (by decide)

def sdbW6 : SDb := ⟨[⟨5, "sch", "protobuf"⟩],
  [⟨6, 1, false, "u", 0, "c", 5, "M"⟩, ⟨7, 2, true, "u", 1, "c2", 5, "M"⟩]⟩

/-- Witness for C6 at a concrete two-version schema: rolling back to
version 1 succeeds and version 1 becomes the only active version. -/
theorem RollBackVersion_spec_witness :
    (RollBackVersion sdbW6 ⟨"sch", 1⟩).1 = .ok ∧
    (∃ v ∈ (RollBackVersion sdbW6 ⟨"sch", 1⟩).2.schemaVersions,
      v.schemaId = 5 ∧ v.versionNumber = 1 ∧ v.active = true) ∧
    (∀ v ∈ (RollBackVersion sdbW6 ⟨"sch", 1⟩).2.schemaVersions,
      v.schemaId = 5 → v.active = true → v.versionNumber = 1) :=
  (RollBackVersion_spec sdbW6 ⟨"sch", 1⟩).2.2.1 ⟨5, "sch", "protobuf"⟩
    (by decide) (by decide) (by decide)

/-- Witness for the amended C8 at a concrete unsupported type: the type
error is routed to the showable status. -/
theorem ValidateSchema_amended_spec_witness :
    (ValidateSchema protoOkW ⟨[], []⟩ ⟨"avro", "c", "M"⟩).1 =
      .showableErr "Json/Avro types are not supported at this time" :=
  (ValidateSchema_amended_spec protoOkW ⟨[], []⟩ ⟨"avro", "c", "M"⟩).2.2.2.1
    "Json/Avro types are not supported at this time" (by decide)

/-- Witness for the amended C9: concrete runs of the empty-name rejection,
the 33-byte rejection, the validator's uppercase rejection and the absence
of the invalid-characters error on a lowercasable name. -/
theorem producerName_boundaries_amended_witness :
    createProducerDirect dbW9 ⟨"", "st1", 1, "application"⟩ "u1" 7 8 5 =
      (.error "Producer name can not be empty", dbW9) ∧
    createProducerDirect dbW9 ⟨"aaaaaaaaaaaaaaaaaaaaaaaaaaaaaaaaa", "st1", 1, "application"⟩
        "u1" 7 8 5 =
      (.error "Producer name should be under 32 characters", dbW9) ∧
    validateProducerName "aB" = some "Producer name has to include only letters and _" ∧
    (createProducerDirect dbW9 ⟨"A", "st1", 1, "application"⟩ "u1" 7 8 5).1 ≠
      .error "Producer name has to include only letters and _" :=
  ⟨producerName_boundaries_amended.1 dbW9 ⟨"", "st1", 1, "application"⟩ "u1" 7 8 5 rfl,
    producerName_boundaries_amended.2.1 dbW9
      ⟨"aaaaaaaaaaaaaaaaaaaaaaaaaaaaaaaaa", "st1", 1, "application"⟩ "u1" 7 8 5 (by decide),
    producerName_boundaries_amended.2.2.1 "aB" (by decide) (by decide),
    producerName_boundaries_amended.2.2.2 dbW9 ⟨"A", "st1", 1, "application"⟩ "u1" 7 8 5
      (by decide)⟩

def envW10 : OverviewReads :=
  ⟨.ok (some ⟨2, "st", 0, false⟩), .error (), .ok [], .ok [], .ok 0, .ok 0⟩

/-- Witness for C10: with the station present and the producers read
failing, the endpoint answers the empty snapshot with no error. -/
theorem getStationOverviewData_spec_witness :
    getStationOverviewData envW10 = .ok emptyStationOverview :=
  (getStationOverviewData_spec envW10).2.2.1 ⟨2, "st", 0, false⟩ rfl (Or.inl rfl)

def stW7 : Station := ⟨2, "st", 0, false⟩

def dbW7 : Db := ⟨[], [stW7],
  [⟨10, "p", 2, 0, "application", 1, "u", true, false, 9⟩,
   ⟨11, "p", 2, 0, "application", 1, "u", false, true, 3⟩,
   ⟨12, "q", 2, 0, "application", 1, "u", false, false, 7⟩,
   ⟨13, "r", 4, 0, "application", 1, "u", true, false, 8⟩], []⟩

/-- Witness for C7 at a concrete station with a recreated name, a
disconnected producer and a foreign-station row. -/
theorem GetProducersByStation_spec_witness :
    (∀ p ∈ (GetProducersByStation dbW7 stW7).1,
      p.isActive = true ∧ p.isDeleted = false) ∧
    (∀ p ∈ (GetProducersByStation dbW7 stW7).2.1,
      p.isActive = false ∧ p.isDeleted = false) ∧
    (∀ p ∈ (GetProducersByStation dbW7 stW7).2.2, p.isDeleted = true) ∧
    ((GetProducersByStation dbW7 stW7).1 ++ (GetProducersByStation dbW7 stW7).2.1 ++
      (GetProducersByStation dbW7 stW7).2.2).Pairwise (fun a b => a.name ≠ b.name) ∧
    (∀ p ∈ (GetProducersByStation dbW7 stW7).1 ++ (GetProducersByStation dbW7 stW7).2.1 ++
      (GetProducersByStation dbW7 stW7).2.2,
      p ∈ dbW7.producers.filter (fun q => q.stationId == stW7.id) ∧
      ∀ q ∈ dbW7.producers.filter (fun q => q.stationId == stW7.id),
        q.name = p.name → q.creationDate ≤ p.creationDate) ∧
    (∀ q ∈ dbW7.producers.filter (fun q => q.stationId == stW7.id),
      ∃ p ∈ (GetProducersByStation dbW7 stW7).1 ++ (GetProducersByStation dbW7 stW7).2.1 ++
        (GetProducersByStation dbW7 stW7).2.2, p.name = q.name) ∧
    (List.Sorted prodDateGe (GetProducersByStation dbW7 stW7).1 ∧
     List.Sorted prodDateGe (GetProducersByStation dbW7 stW7).2.1 ∧
     List.Sorted prodDateGe (GetProducersByStation dbW7 stW7).2.2) :=
  GetProducersByStation_spec dbW7 stW7 (by decide)

end Memphis